import Mathlib

/-!
Verification development for the KeePass v1 crypter module
(src/kpdb/crypter.rs of rust-keepass).

The Rust code is shallowly embedded: byte buffers are lists of natural
numbers (each entry a byte value), fallible operations return
Except V1KpdbError, and the security-relevant unsafe effects of the
source (volatile_set_memory, mlock, munlock, SecureString unlock and
delete) are recorded as an explicit event trace so that properties about
zeroization and credential deletion on each control path can be stated.
External collaborators (OpenSSL hashing and ciphers, the filesystem,
UTF-8 validation inside read_to_string) are parameters of a CryptoEnv
record, since their code is not part of this repository.
-/

/-- Error type of the module (src/kpdb/v1error.rs, as used by crypter.rs). -/
inductive V1KpdbError where
  | PassErr
  | FileErr
  | ReadErr
  | DecryptErr
  | HashErr
  deriving DecidableEq

/-- Names of the sensitive buffers and credentials appearing in crypter.rs;
used to label the security-effect trace. -/
inductive SecretId where
  | password
  | keyfile
  | passwordkey
  | keyfilekey
  | masterkey
  | masterkey_tmp
  | finalkey
  | key
  | decoded_key
  | buf
  | decrypted_database
  deriving DecidableEq

/-- Security-relevant effects performed by the source through unsafe blocks
and the SecureString interface:
mlock / munlock (libc mman), zeroize (volatile_set_memory with 0),
credUnlock (SecureString.unlock) and deleteCred (SecureString.delete). -/
inductive SecEvent where
  | mlock (s : SecretId)
  | munlock (s : SecretId)
  | zeroize (s : SecretId)
  | credUnlock (s : SecretId)
  | deleteCred (s : SecretId)
  deriving DecidableEq

/-- Modelled from the spec: the external SecureString collaborator.
Only its byte contents are relevant to the crypter: for a password the
UTF-8 bytes of the passphrase, for a keyfile the bytes of the path. -/
structure SecureString where
  string : List Nat
  deriving DecidableEq

/-- Modelled from the spec: the V1Header fields consumed by crypter.rs
(src/kpdb/v1header.rs is not part of the sources under review; the field
list follows the header contract of the spec). -/
structure V1Header where
  transf_randomseed : List Nat
  key_transf_rounds : Nat
  final_randomseed : List Nat
  iv : List Nat
  content_hash : List Nat
  num_groups : Nat

/-- The environment of external collaborators of crypter.rs:
sha256 is the OpenSSL SHA-256 digest of a byte stream;
aesEcbEnc key data is AES-256-ECB encryption (no padding, no IV);
cbcEnc key iv data models openssl symm::encrypt with AES_256_CBC, which
PKCS#7-pads the data and encrypts it;
cbcDec key iv data models openssl symm::decrypt with AES_256_CBC, whose
output still carries the PKCS#7 padding (the source strips it by hand);
fs maps a file path to its byte contents (none: the open fails);
validUtf8 tells whether read_to_string succeeds on the given bytes;
hashWriteOk tells whether Hasher::write_all succeeds on nonempty input. -/
structure CryptoEnv where
  sha256 : List Nat → List Nat
  aesEcbEnc : List Nat → List Nat → List Nat
  cbcEnc : List Nat → List Nat → List Nat → List Nat
  cbcDec : List Nat → List Nat → List Nat → List Nat
  fs : List Nat → Option (List Nat)
  validUtf8 : List Nat → Bool
  hashWriteOk : Bool

instance {ε α : Type} [DecidableEq ε] [DecidableEq α] : DecidableEq (Except ε α) :=
  fun a b =>
  match a, b with
  | .error x, .error y =>
    if h : x = y then .isTrue (by rw [h])
    else .isFalse (by intro hc; cases hc; exact h rfl)
  | .ok x, .ok y =>
    if h : x = y then .isTrue (by rw [h])
    else .isFalse (by intro hc; cases hc; exact h rfl)
  | .error _, .ok _ => .isFalse (by intro hc; cases hc)
  | .ok _, .error _ => .isFalse (by intro hc; cases hc)

/-- hasher.write_all(data).map_err(|_| V1KpdbError::DecryptErr):
write_all on an empty slice performs no write and always succeeds;
otherwise success is governed by the environment. -/
def writeAll (env : CryptoEnv) (data : List Nat) : Except V1KpdbError Unit :=
  if data.isEmpty then .ok ()
  else if env.hashWriteOk then .ok () else .error .DecryptErr

/-- Modelled from the spec: PKCS#7 pad length for AES (block size 16),
as performed inside openssl symm::encrypt. -/
def padLen (n : Nat) : Nat := 16 - n % 16

/-- Modelled from the spec: PKCS#7 padding of a byte list (block size 16). -/
def pkcs7pad (d : List Nat) : List Nat :=
  d ++ List.replicate (padLen d.length) (padLen d.length)

/-- Modelled from the spec: value of one case-insensitive hex digit byte. -/
def hexDigitVal (b : Nat) : Option Nat :=
  if 48 ≤ b ∧ b ≤ 57 then some (b - 48)
  else if 65 ≤ b ∧ b ≤ 70 then some (b - 55)
  else if 97 ≤ b ∧ b ≤ 102 then some (b - 87)
  else none

/-- Modelled from the spec: hex decoding as performed by
rustc_serialize FromHex on the 64-byte keyfile contents — two hex digits
per byte, case-insensitive; any non-hex byte makes it fail. -/
def fromHex : List Nat → Option (List Nat)
  | [] => some []
  | [_] => none
  | a :: b :: rest =>
    match hexDigitVal a, hexDigitVal b, fromHex rest with
    | some x, some y, some tail => some ((x * 16 + y) :: tail)
    | _, _, _ => none

/-- The Crypter struct: optional password and keyfile credentials. -/
structure Crypter where
  password : Option SecureString
  keyfile : Option SecureString

/-- Crypter::get_passwordkey (crypter.rs lines 149-165): unlock the
password, feed its bytes to a SHA-256 hasher (early return with
DecryptErr on write failure), delete the SecureString, return the locked
digest. The value is paired with the trace of security effects. -/
def Crypter.get_passwordkey (env : CryptoEnv) (password : SecureString) :
    Except V1KpdbError (List Nat) × List SecEvent :=
  match writeAll env password.string with
  | .error e => (.error e, [.credUnlock .password])
  | .ok _ =>
    (.ok (env.sha256 password.string),
     [.credUnlock .password, .deleteCred .password, .mlock .passwordkey])

/-- The read-and-hash loop at the end of Crypter::get_keyfilekey
(crypter.rs lines 255-296): read the rest of the file in chunks of at
most 2048 bytes, feed each chunk to the hasher and zero the chunk buffer;
finish with the digest of everything absorbed. rest is what remains of
the file from the current cursor position; absorbed accumulates the
stream already fed to the hasher. -/
def keyfileHashLoop (env : CryptoEnv) (rest absorbed : List Nat) :
    Except V1KpdbError (List Nat) × List SecEvent :=
  if hr : rest.isEmpty then
    (.ok (env.sha256 absorbed), [.munlock .buf, .mlock .key])
  else
    match writeAll env (rest.take 2048) with
    | .error e => (.error e, [])
    | .ok _ =>
      let r := keyfileHashLoop env (rest.drop 2048) (absorbed ++ rest.take 2048)
      (r.1, .zeroize .buf :: r.2)
termination_by rest.length
decreasing_by
  simp only [List.length_drop]
  cases rest with
  | nil => simp at hr
  | cons a t => simp; omega

/-- Crypter::get_keyfilekey (crypter.rs lines 183-297): open the file at
the path held by the SecureString (FileErr on failure), delete the
SecureString, take the file size.
Size 32: the raw contents are the key.
Size 64: read_to_string; if that fails (invalid UTF-8), zero the string
buffer and seek back to the start; if it succeeds, try hex decoding and
return the decoded key on success — on hex failure nothing is rewound,
so the cursor stays at end of file and the subsequent hash loop absorbs
an empty stream.
Any other size (or fallthrough): hash the remaining stream in chunks. -/
def Crypter.get_keyfilekey (env : CryptoEnv) (keyfile : SecureString) :
    Except V1KpdbError (List Nat) × List SecEvent :=
  match env.fs keyfile.string with
  | none => (.error .FileErr, [.credUnlock .keyfile])
  | some contents =>
    let pre : List SecEvent := [.credUnlock .keyfile, .deleteCred .keyfile]
    let file_size := contents.length
    if file_size = 32 then
      (.ok contents, pre ++ [.mlock .key])
    else if file_size = 64 then
      if env.validUtf8 contents then
        match fromHex contents with
        | some decoded_key =>
          (.ok decoded_key,
           pre ++ [.mlock .key, .mlock .decoded_key, .zeroize .key, .munlock .key])
        | none =>
          let r := keyfileHashLoop env (contents.drop file_size) []
          (r.1, pre ++ [.mlock .key, .mlock .buf] ++ r.2)
      else
        let r := keyfileHashLoop env contents []
        (r.1, pre ++ [.mlock .key, .zeroize .key, .munlock .key, .mlock .buf] ++ r.2)
    else
      let r := keyfileHashLoop env contents []
      (r.1, pre ++ [.mlock .buf] ++ r.2)

/-- The credential match at the head of Crypter::get_finalkey
(crypter.rs lines 95-133), factored out: derive the master key from the
optional password and keyfile. With both credentials the two keys are
hashed together (the hasher absorbs passwordkey then keyfilekey, so the
digest is over their concatenation), the two keys are zeroed and
unlocked, and the combined key is locked. With neither: PassErr. -/
def Crypter.get_masterkey (env : CryptoEnv)
    (password keyfile : Option SecureString) :
    Except V1KpdbError (List Nat) × List SecEvent :=
  match password, keyfile with
  | some p, none => Crypter.get_passwordkey env p
  | none, some k => Crypter.get_keyfilekey env k
  | some p, some k =>
    match Crypter.get_passwordkey env p with
    | (.error e, t1) => (.error e, t1)
    | (.ok passwordkey, t1) =>
      match Crypter.get_keyfilekey env k with
      | (.error e, t2) => (.error e, t1 ++ t2)
      | (.ok keyfilekey, t2) =>
        match writeAll env passwordkey with
        | .error e => (.error e, t1 ++ t2)
        | .ok _ =>
          match writeAll env keyfilekey with
          | .error e => (.error e, t1 ++ t2)
          | .ok _ =>
            (.ok (env.sha256 (passwordkey ++ keyfilekey)),
             t1 ++ t2 ++
             [.zeroize .passwordkey, .zeroize .keyfilekey,
              .munlock .passwordkey, .munlock .keyfilekey,
              .mlock .masterkey_tmp])
  | none, none => (.error .PassErr, [])

/-- The key-transform loop of Crypter::transform_key (crypter.rs lines
312-314): key_transf_rounds successive AES-256-ECB encryptions of the
master key under transf_randomseed. -/
def ecbRounds (E : List Nat → List Nat) : Nat → List Nat → List Nat
  | 0, mk => mk
  | n + 1, mk => ecbRounds E n (E mk)

/-- Crypter::transform_key (crypter.rs lines 309-338): iterate the ECB
encryption key_transf_rounds times, hash the result, then hash
final_randomseed followed by that digest; the digest variable named
masterkey is zeroed and unlocked and the finalkey is locked. Each
hasher write can fail with DecryptErr. -/
def Crypter.transform_key (env : CryptoEnv) (masterkey : List Nat)
    (header : V1Header) : Except V1KpdbError (List Nat) × List SecEvent :=
  let mk1 := ecbRounds (env.aesEcbEnc header.transf_randomseed)
      header.key_transf_rounds masterkey
  match writeAll env mk1 with
  | .error e => (.error e, [])
  | .ok _ =>
    let mk2 := env.sha256 mk1
    match writeAll env header.final_randomseed with
    | .error e => (.error e, [])
    | .ok _ =>
      match writeAll env mk2 with
      | .error e => (.error e, [])
      | .ok _ =>
        (.ok (env.sha256 (header.final_randomseed ++ mk2)),
         [.zeroize .masterkey, .munlock .masterkey, .mlock .finalkey])

/-- Crypter::get_finalkey (crypter.rs lines 94-137): derive the master
key from the credentials, then transform it into the final key. -/
def Crypter.get_finalkey (env : CryptoEnv) (c : Crypter) (header : V1Header) :
    Except V1KpdbError (List Nat) × List SecEvent :=
  match Crypter.get_masterkey env c.password c.keyfile with
  | (.error e, t) => (.error e, t)
  | (.ok masterkey, t) =>
    let r := Crypter.transform_key env masterkey header
    (r.1, t ++ r.2)

/-- Crypter::decrypt_raw (crypter.rs lines 351-373): CBC-decrypt, zero
and unlock the finalkey, then strip the PKCS#7 padding by reading the
last byte of the plaintext and resizing to length minus that byte. The
source performs no range check: with an empty plaintext the index
len - 1 panics, and with a last byte larger than the length the
subtraction in resize underflows and panics; both are modelled as none. -/
def Crypter.decrypt_raw (env : CryptoEnv) (header : V1Header)
    (encrypted_database finalkey : List Nat) :
    Option (List Nat) × List SecEvent :=
  let decrypted_database := env.cbcDec finalkey header.iv encrypted_database
  let t0 : List SecEvent := [.zeroize .finalkey, .munlock .finalkey]
  if decrypted_database.isEmpty then (none, t0)
  else
    let padding := decrypted_database.getD (decrypted_database.length - 1) 0
    let length := decrypted_database.length
    if length < padding then (none, t0)
    else (some (decrypted_database.take (length - padding)),
          t0 ++ [.mlock .decrypted_database])

/-- Crypter::encrypt_raw (crypter.rs lines 375-390): CBC-encrypt (the
library pads), then zero and unlock both the finalkey and the plaintext
buffer. -/
def Crypter.encrypt_raw (env : CryptoEnv) (header : V1Header)
    (decrypted_database finalkey : List Nat) : List Nat × List SecEvent :=
  let encrypted_database := env.cbcEnc finalkey header.iv decrypted_database
  (encrypted_database,
   [.zeroize .finalkey, .munlock .finalkey,
    .zeroize .decrypted_database, .munlock .decrypted_database])

/-- Crypter::check_decryption_success (crypter.rs lines 398-406). -/
def Crypter.check_decryption_success (header : V1Header)
    (decrypted_content : List Nat) : Except V1KpdbError Unit :=
  if decrypted_content.length > 2147483446 ∨
     (decrypted_content.length = 0 ∧ header.num_groups > 0) then
    .error .DecryptErr
  else .ok ()

/-- Crypter::get_content_hash (crypter.rs lines 413-418). -/
def Crypter.get_content_hash (env : CryptoEnv)
    (decrypted_content : List Nat) : Except V1KpdbError (List Nat) :=
  match writeAll env decrypted_content with
  | .error e => .error e
  | .ok _ => .ok (env.sha256 decrypted_content)

/-- Crypter::check_content_hash (crypter.rs lines 426-434). -/
def Crypter.check_content_hash (env : CryptoEnv) (header : V1Header)
    (decrypted_content : List Nat) : Except V1KpdbError Unit :=
  match Crypter.get_content_hash env decrypted_content with
  | .error e => .error e
  | .ok content_hash =>
    if content_hash ≠ header.content_hash then .error .HashErr else .ok ()

/-- Crypter::decrypt_database (crypter.rs lines 57-64): derive the final
key, decrypt, then run both checks. The outer Option is none when
decrypt_raw panics; otherwise the usual Except result. -/
def Crypter.decrypt_database (env : CryptoEnv) (c : Crypter)
    (header : V1Header) (encrypted_database : List Nat) :
    Option (Except V1KpdbError (List Nat)) × List SecEvent :=
  match Crypter.get_finalkey env c header with
  | (.error e, t) => (some (.error e), t)
  | (.ok finalkey, t) =>
    match Crypter.decrypt_raw env header encrypted_database finalkey with
    | (none, t2) => (none, t ++ t2)
    | (some decrypted_database, t2) =>
      match Crypter.check_decryption_success header decrypted_database with
      | .error e => (some (.error e), t ++ t2)
      | .ok _ =>
        match Crypter.check_content_hash env header decrypted_database with
        | .error e => (some (.error e), t ++ t2)
        | .ok _ => (some (.ok decrypted_database), t ++ t2)

/-- Crypter::encrypt_database (crypter.rs lines 73-76). -/
def Crypter.encrypt_database (env : CryptoEnv) (c : Crypter)
    (header : V1Header) (decrypted_database : List Nat) :
    Except V1KpdbError (List Nat) × List SecEvent :=
  match Crypter.get_finalkey env c header with
  | (.error e, t) => (.error e, t)
  | (.ok finalkey, t) =>
    let r := Crypter.encrypt_raw env header decrypted_database finalkey
    (.ok r.1, t ++ r.2)

/-- Value projection of get_passwordkey (the Rust return value). -/
def Crypter.get_passwordkeyV (env : CryptoEnv) (p : SecureString) :
    Except V1KpdbError (List Nat) :=
  (Crypter.get_passwordkey env p).1

/-- Value projection of get_keyfilekey. -/
def Crypter.get_keyfilekeyV (env : CryptoEnv) (k : SecureString) :
    Except V1KpdbError (List Nat) :=
  (Crypter.get_keyfilekey env k).1

/-- Value projection of the master-key derivation. -/
def Crypter.get_masterkeyV (env : CryptoEnv)
    (password keyfile : Option SecureString) : Except V1KpdbError (List Nat) :=
  (Crypter.get_masterkey env password keyfile).1

/-- Value projection of transform_key. -/
def Crypter.transform_keyV (env : CryptoEnv) (masterkey : List Nat)
    (header : V1Header) : Except V1KpdbError (List Nat) :=
  (Crypter.transform_key env masterkey header).1

/-- Value projection of get_finalkey. -/
def Crypter.get_finalkeyV (env : CryptoEnv) (c : Crypter)
    (header : V1Header) : Except V1KpdbError (List Nat) :=
  (Crypter.get_finalkey env c header).1

/-- Value projection of decrypt_raw (none models a panic). -/
def Crypter.decrypt_rawV (env : CryptoEnv) (header : V1Header)
    (encrypted_database finalkey : List Nat) : Option (List Nat) :=
  (Crypter.decrypt_raw env header encrypted_database finalkey).1

/-- Value projection of decrypt_database (outer none models a panic). -/
def Crypter.decrypt_databaseV (env : CryptoEnv) (c : Crypter)
    (header : V1Header) (encrypted_database : List Nat) :
    Option (Except V1KpdbError (List Nat)) :=
  (Crypter.decrypt_database env c header encrypted_database).1

/-- Value projection of encrypt_database. -/
def Crypter.encrypt_databaseV (env : CryptoEnv) (c : Crypter)
    (header : V1Header) (decrypted_database : List Nat) :
    Except V1KpdbError (List Nat) :=
  (Crypter.encrypt_database env c header decrypted_database).1

/-- A concrete environment used to evaluate the embedding on concrete
inputs: the digest of a list is its length prepended to it (injective and
easy to compute), the ECB cipher is the identity, CBC encryption is just
the PKCS#7 padding and CBC decryption the identity (so that the CBC
round-trip contract holds definitionally), the filesystem has a 32-byte
file of sevens at path [40] and a 64-byte file of Z bytes (0x5A) at path
[41], UTF-8 validity is the ASCII check (exact on the ASCII inputs used),
and hasher writes succeed. -/
def testEnv : CryptoEnv where
  sha256 := fun d => d.length :: d
  aesEcbEnc := fun _ d => d
  cbcEnc := fun _ _ d => pkcs7pad d
  cbcDec := fun _ _ c => c
  fs := fun p =>
    if p = [40] then some (List.replicate 32 7)
    else if p = [41] then some (List.replicate 64 90)
    else none
  validUtf8 := fun l => l.all (fun b => b < 128)
  hashWriteOk := true

/-- testEnv with failing hasher writes. -/
def failHashEnv : CryptoEnv := { testEnv with hashWriteOk := false }

/-- A header with zeroed seeds, no transform rounds, no groups. -/
def hdr0 : V1Header where
  transf_randomseed := List.replicate 32 0
  key_transf_rounds := 0
  final_randomseed := List.replicate 16 0
  iv := List.replicate 16 0
  content_hash := []
  num_groups := 0

/-- A header whose content hash is the testEnv digest of the byte list
with single entry 1. -/
def hdrH : V1Header := { hdr0 with content_hash := [1, 1] }

/-- A Crypter holding both a password and a keyfile whose path [2] does
not exist in testEnv. -/
def bothCreds : Crypter := ⟨some ⟨[1]⟩, some ⟨[2]⟩⟩

/-- A Crypter holding only a password. -/
def pwOnly : Crypter := ⟨some ⟨[7]⟩, none⟩

/-- A header for the empty-plaintext round trip: content hash of the
empty plaintext under testEnv, and one group. -/
def hdrC1 : V1Header :=
  { hdr0 with content_hash := testEnv.sha256 [], num_groups := 1 }

/-- A header for a nonempty round trip under testEnv. -/
def hdrW : V1Header :=
  { hdr0 with content_hash := testEnv.sha256 [1, 2, 3], num_groups := 5 }

theorem writeAll_ok (env : CryptoEnv) (hw : env.hashWriteOk = true)
    (l : List Nat) : writeAll env l = .ok () := by
  unfold writeAll
  rw [hw]
  simp

theorem ecbRounds_eq_iterate (E : List Nat → List Nat) (n : Nat)
    (mk : List Nat) : ecbRounds E n mk = Nat.iterate E n mk := by
  induction n generalizing mk with
  | zero => rfl
  | succ m ih => exact ih (E mk)

theorem get_passwordkeyV_ok (env : CryptoEnv) (hw : env.hashWriteOk = true)
    (p : SecureString) :
    Crypter.get_passwordkeyV env p = .ok (env.sha256 p.string) := by
  simp only [Crypter.get_passwordkeyV, Crypter.get_passwordkey,
    writeAll_ok env hw]

theorem get_keyfilekeyV_raw32 (env : CryptoEnv) (k : SecureString)
    (contents : List Nat) (hfs : env.fs k.string = some contents)
    (hlen : contents.length = 32) :
    Crypter.get_keyfilekeyV env k = .ok contents := by
  simp only [Crypter.get_keyfilekeyV, Crypter.get_keyfilekey, hfs, hlen]
  simp

/-- Claim C5: check_decryption_success fails with DecryptErr exactly when
the plaintext length exceeds 2147483446, or the plaintext is empty while
num_groups is positive; otherwise it succeeds, and in particular an empty
plaintext is accepted when num_groups is zero. -/
theorem C5_check_decryption_success (header : V1Header) (d : List Nat) :
    (Crypter.check_decryption_success header d = .error .DecryptErr ↔
      d.length > 2147483446 ∨ (d.length = 0 ∧ header.num_groups > 0)) ∧
    (¬(d.length > 2147483446 ∨ (d.length = 0 ∧ header.num_groups > 0)) →
      Crypter.check_decryption_success header d = .ok ()) ∧
    (header.num_groups = 0 →
      Crypter.check_decryption_success header [] = .ok ()) := by
  refine ⟨?_, ?_, ?_⟩
  · unfold Crypter.check_decryption_success
    split_ifs with h
    · exact iff_of_true rfl h
    · exact iff_of_false (by simp) h
  · intro h
    unfold Crypter.check_decryption_success
    exact if_neg h
  · intro h0
    unfold Crypter.check_decryption_success
    rw [if_neg]
    simp [h0]

/-- Witness for C5 at a concrete header and plaintext. -/
theorem C5_witness :
    hdr0.num_groups = 0 ∧ Crypter.check_decryption_success hdr0 [] = .ok () :=
  ⟨rfl, (C5_check_decryption_success hdr0 [3]).2.2 rfl⟩

/-- Claim C6: when hashing succeeds, check_content_hash fails with
HashErr exactly when the SHA-256 of the plaintext differs from the
content_hash field of the header, and succeeds otherwise. -/
theorem C6_check_content_hash (env : CryptoEnv) (header : V1Header)
    (d : List Nat) (hw : env.hashWriteOk = true) :
    (Crypter.check_content_hash env header d = .error .HashErr ↔
      env.sha256 d ≠ header.content_hash) ∧
    (env.sha256 d = header.content_hash →
      Crypter.check_content_hash env header d = .ok ()) := by
  have hbody : Crypter.check_content_hash env header d =
      if env.sha256 d ≠ header.content_hash then .error .HashErr
      else .ok () := by
    simp only [Crypter.check_content_hash, Crypter.get_content_hash,
      writeAll_ok env hw]
  constructor
  · rw [hbody]
    split_ifs with h
    · exact iff_of_true rfl h
    · exact iff_of_false (by simp) h
  · intro he
    rw [hbody, if_neg (by simp [he])]

/-- Witness for C6 at a concrete environment, header and plaintext. -/
theorem C6_witness :
    testEnv.hashWriteOk = true ∧ testEnv.sha256 [1] = hdrH.content_hash ∧
    Crypter.check_content_hash testEnv hdrH [1] = .ok () :=
  ⟨rfl, rfl, (C6_check_content_hash testEnv hdrH [1] rfl).2 rfl⟩

/-- Claim C7: a keyfile of exactly 32 bytes yields its raw contents as
the keyfile key, with no hashing and no decoding. -/
theorem C7_keyfile_raw32 (env : CryptoEnv) (k : SecureString)
    (contents : List Nat) (hfs : env.fs k.string = some contents)
    (hlen : contents.length = 32) :
    Crypter.get_keyfilekeyV env k = .ok contents :=
  get_keyfilekeyV_raw32 env k contents hfs hlen

theorem isEmpty_false_of_ne_nil {l : List Nat} (h : l ≠ []) :
    l.isEmpty = false := by
  cases l with
  | nil => exact absurd rfl h
  | cons a t => rfl

/-- Claim C9: decrypt_raw strips padding without a range check. It
panics (none) exactly when the CBC-decrypted plaintext is empty or its
last byte exceeds its length, and whenever the last byte p satisfies
1 <= p <= length it returns the plaintext with exactly its p trailing
bytes removed. -/
theorem C9_decrypt_raw (env : CryptoEnv) (header : V1Header)
    (enc fk d : List Nat) (hd : env.cbcDec fk header.iv enc = d) :
    (Crypter.decrypt_rawV env header enc fk = none ↔
      d = [] ∨ d.length < d.getD (d.length - 1) 0) ∧
    (∀ p, 1 ≤ p → p ≤ d.length → d.getD (d.length - 1) 0 = p →
      Crypter.decrypt_rawV env header enc fk =
        some (d.take (d.length - p))) := by
  have hbody : Crypter.decrypt_rawV env header enc fk =
      if d.isEmpty then none
      else if d.length < d.getD (d.length - 1) 0 then none
      else some (d.take (d.length - d.getD (d.length - 1) 0)) := by
    simp only [Crypter.decrypt_rawV, Crypter.decrypt_raw, hd]
    split_ifs <;> rfl
  constructor
  · rw [hbody]
    by_cases hemp : d = []
    · subst hemp
      simp
    · rw [isEmpty_false_of_ne_nil hemp]
      simp only [Bool.false_eq_true, if_false]
      split_ifs with hlt
      · exact iff_of_true rfl (Or.inr hlt)
      · exact iff_of_false (by simp) (by tauto)
  · intro p hp1 hp2 hgd
    have hne : d ≠ [] := by
      intro he
      subst he
      simp at hgd
      omega
    rw [hbody, isEmpty_false_of_ne_nil hne]
    simp only [Bool.false_eq_true, if_false, hgd]
    rw [if_neg (by omega)]

/-- Witness for C9: a four-byte decrypted plaintext ending in the pad
byte 2 has its last two bytes stripped. -/
theorem C9_witness :
    testEnv.cbcDec [9] hdr0.iv [1, 2, 3, 2] = [1, 2, 3, 2] ∧
    (1 : Nat) ≤ 2 ∧ (2 : Nat) ≤ ([1, 2, 3, 2] : List Nat).length ∧
    ([1, 2, 3, 2] : List Nat).getD (([1, 2, 3, 2] : List Nat).length - 1) 0 = 2 ∧
    Crypter.decrypt_rawV testEnv hdr0 [1, 2, 3, 2] [9] = some [1, 2] :=
  ⟨rfl, by decide, by decide, by decide,
   (C9_decrypt_raw testEnv hdr0 [1, 2, 3, 2] [9] [1, 2, 3, 2] rfl).2 2
     (by decide) (by decide) (by decide)⟩

/-- keyfileHashLoop on an exhausted stream: nothing is absorbed beyond
what is already accumulated; the digest of the accumulator is returned. -/
theorem keyfileHashLoop_nil (env : CryptoEnv) (absorbed : List Nat) :
    keyfileHashLoop env [] absorbed =
      (.ok (env.sha256 absorbed), [.munlock .buf, .mlock .key]) := by
  unfold keyfileHashLoop
  rfl

/-- Claim C4 (divergence witness): for the 64-byte keyfile of Z bytes
(0x5A) at path [41], the code returns the digest of the EMPTY stream:
after read_to_string consumed the file, the failed hex decode does not
rewind it, so the hash loop absorbs nothing. The digest of the empty
stream differs from the digest of the 64-byte contents that the spec
prescribes. -/
theorem C4_hex_fallback_divergence :
    Crypter.get_keyfilekeyV testEnv ⟨[41]⟩ = .ok (testEnv.sha256 []) ∧
    testEnv.sha256 [] ≠ testEnv.sha256 (List.replicate 64 90) := by
  constructor
  · have h0 : Crypter.get_keyfilekeyV testEnv ⟨[41]⟩ =
        (keyfileHashLoop testEnv [] []).1 := rfl
    rw [h0, keyfileHashLoop_nil]
  · decide

/-- Claim C8 (divergence witness): when the hasher write fails,
get_passwordkey returns DecryptErr without ever invoking the
SecureString delete operation. -/
theorem C8_delete_skipped_on_failure :
    (Crypter.get_passwordkey failHashEnv ⟨[1]⟩).1 = .error .DecryptErr ∧
    SecEvent.deleteCred .password ∉ (Crypter.get_passwordkey failHashEnv ⟨[1]⟩).2 := by
  decide

/-- Claim C10 (divergence witness): with both credentials present and a
keyfile that fails to open, decrypt_database returns FileErr on a path
where passwordkey was created and locked but never zeroized or unlocked. -/
theorem C10_passwordkey_not_zeroized :
    (Crypter.decrypt_database testEnv bothCreds hdr0 [0]).1 =
      some (.error .FileErr) ∧
    SecEvent.mlock .passwordkey ∈
      (Crypter.decrypt_database testEnv bothCreds hdr0 [0]).2 ∧
    SecEvent.zeroize .passwordkey ∉
      (Crypter.decrypt_database testEnv bothCreds hdr0 [0]).2 ∧
    SecEvent.munlock .passwordkey ∉
      (Crypter.decrypt_database testEnv bothCreds hdr0 [0]).2 := by
  decide

/-- Claim C2: when hashing succeeds, transform_key returns the SHA-256 of
final_randomseed concatenated with the SHA-256 of the n-fold AES-256-ECB
encryption (keyed with transf_randomseed) of the master key, where n is
key_transf_rounds; with zero rounds this is the SHA-256 of
final_randomseed concatenated with the SHA-256 of the master key itself. -/
theorem C2_transform_key (env : CryptoEnv) (masterkey : List Nat)
    (header : V1Header) (hw : env.hashWriteOk = true)
    (hlen : masterkey.length = 32) :
    Crypter.transform_keyV env masterkey header =
      .ok (env.sha256 (header.final_randomseed ++
        env.sha256 (Nat.iterate (env.aesEcbEnc header.transf_randomseed)
          header.key_transf_rounds masterkey))) ∧
    (header.key_transf_rounds = 0 →
      Crypter.transform_keyV env masterkey header =
        .ok (env.sha256 (header.final_randomseed ++
          env.sha256 masterkey))) := by
  have hmain : Crypter.transform_keyV env masterkey header =
      .ok (env.sha256 (header.final_randomseed ++
        env.sha256 (Nat.iterate (env.aesEcbEnc header.transf_randomseed)
          header.key_transf_rounds masterkey))) := by
    simp only [Crypter.transform_keyV, Crypter.transform_key,
      writeAll_ok env hw, ecbRounds_eq_iterate]
  exact ⟨hmain, fun h0 => by rw [hmain, h0]; simp⟩

/-- Witness for C2 at a concrete environment, key and header. -/
theorem C2_witness :
    testEnv.hashWriteOk = true ∧ (List.replicate 32 5).length = 32 ∧
    (Crypter.transform_keyV testEnv (List.replicate 32 5) hdr0 =
      .ok (testEnv.sha256 (hdr0.final_randomseed ++
        testEnv.sha256 (Nat.iterate (testEnv.aesEcbEnc hdr0.transf_randomseed)
          hdr0.key_transf_rounds (List.replicate 32 5)))) ∧
     (hdr0.key_transf_rounds = 0 →
      Crypter.transform_keyV testEnv (List.replicate 32 5) hdr0 =
        .ok (testEnv.sha256 (hdr0.final_randomseed ++
          testEnv.sha256 (List.replicate 32 5))))) :=
  ⟨rfl, by decide,
   C2_transform_key testEnv (List.replicate 32 5) hdr0 rfl (by decide)⟩

/-- Claim C3: the master key is derived from the credentials by a
four-case rule — password only gives the SHA-256 of the passphrase
bytes; a 32-byte keyfile alone gives its raw bytes; both credentials
give the SHA-256 of the concatenation of the password key and the
keyfile key; no credentials give PassErr. -/
theorem C3_master_key (env : CryptoEnv) (hw : env.hashWriteOk = true) :
    (∀ p : SecureString,
      Crypter.get_masterkeyV env (some p) none = .ok (env.sha256 p.string)) ∧
    (∀ (k : SecureString) (B : List Nat), env.fs k.string = some B →
      B.length = 32 → Crypter.get_masterkeyV env none (some k) = .ok B) ∧
    (∀ (p k : SecureString) (pk kk : List Nat),
      Crypter.get_passwordkeyV env p = .ok pk →
      Crypter.get_keyfilekeyV env k = .ok kk →
      Crypter.get_masterkeyV env (some p) (some k) =
        .ok (env.sha256 (pk ++ kk))) ∧
    Crypter.get_masterkeyV env none none = .error .PassErr := by
  refine ⟨?_, ?_, ?_, rfl⟩
  · intro p
    have h := get_passwordkeyV_ok env hw p
    simpa only [Crypter.get_masterkeyV, Crypter.get_masterkey] using h
  · intro k B hfs hlen
    have h := get_keyfilekeyV_raw32 env k B hfs hlen
    simpa only [Crypter.get_masterkeyV, Crypter.get_masterkey] using h
  · intro p k pk kk hp hk
    rcases hpp : Crypter.get_passwordkey env p with ⟨v1, t1⟩
    rcases hkk : Crypter.get_keyfilekey env k with ⟨v2, t2⟩
    have hv1 : v1 = .ok pk := by
      have := hp
      rw [Crypter.get_passwordkeyV, hpp] at this
      exact this
    have hv2 : v2 = .ok kk := by
      have := hk
      rw [Crypter.get_keyfilekeyV, hkk] at this
      exact this
    subst hv1 hv2
    simp only [Crypter.get_masterkeyV, Crypter.get_masterkey, hpp, hkk,
      writeAll_ok env hw]

/-- Witness for C3: taking the 32-byte keyfile case at path [40]. -/
theorem C3_witness :
    testEnv.hashWriteOk = true ∧
    testEnv.fs ([40] : List Nat) = some (List.replicate 32 7) ∧
    (List.replicate 32 7).length = 32 ∧
    Crypter.get_masterkeyV testEnv none (some ⟨[40]⟩) =
      .ok (List.replicate 32 7) :=
  ⟨rfl, rfl, by decide,
   (C3_master_key testEnv rfl).2.1 ⟨[40]⟩ (List.replicate 32 7) rfl (by decide)⟩

/-- Witness for C7: the 32-byte file of sevens at path [40] in testEnv. -/
theorem C7_witness :
    testEnv.fs ([40] : List Nat) = some (List.replicate 32 7) ∧
    (List.replicate 32 7).length = 32 ∧
    Crypter.get_keyfilekeyV testEnv ⟨[40]⟩ = .ok (List.replicate 32 7) :=
  ⟨rfl, by decide,
   C7_keyfile_raw32 testEnv ⟨[40]⟩ (List.replicate 32 7) rfl (by decide)⟩

theorem padLen_pos (n : Nat) : 0 < padLen n := by
  unfold padLen
  have h := Nat.mod_lt n (show 0 < 16 by norm_num)
  omega

theorem pkcs7pad_length (d : List Nat) :
    (pkcs7pad d).length = d.length + padLen d.length := by
  simp [pkcs7pad]

theorem pkcs7pad_ne_nil (d : List Nat) : pkcs7pad d ≠ [] := by
  intro h
  have h1 := congrArg List.length h
  rw [pkcs7pad_length] at h1
  have h2 := padLen_pos d.length
  simp at h1
  omega

theorem getD_append_right (l r : List Nat) (i : Nat) :
    (l ++ r).getD (l.length + i) 0 = r.getD i 0 := by
  induction l with
  | nil => simp
  | cons a t ih =>
    have hidx : (a :: t).length + i = (t.length + i) + 1 := by
      simp
      omega
    rw [hidx]
    simpa using ih

theorem getD_replicate_self (n a i : Nat) (h : i < n) :
    (List.replicate n a).getD i 0 = a := by
  induction n generalizing i with
  | zero => omega
  | succ m ih =>
    cases i with
    | zero => simp [List.replicate_succ]
    | succ j =>
      rw [List.replicate_succ]
      simpa using ih j (by omega)

theorem pkcs7pad_lastByte (d : List Nat) :
    (pkcs7pad d).getD ((pkcs7pad d).length - 1) 0 = padLen d.length := by
  have hp := padLen_pos d.length
  have hidx : (pkcs7pad d).length - 1 = d.length + (padLen d.length - 1) := by
    rw [pkcs7pad_length]
    omega
  rw [hidx]
  unfold pkcs7pad
  rw [getD_append_right]
  exact getD_replicate_self _ _ _ (by omega)

theorem take_append_length (l r : List Nat) : (l ++ r).take l.length = l := by
  induction l with
  | nil => simp
  | cons a t ih => simp [ih]

/-- decrypt_raw on a CBC decryption that yields exactly a PKCS#7-padded
plaintext strips the padding and returns the plaintext, zeroizing and
unlocking the finalkey and locking the plaintext. -/
theorem decrypt_raw_pad (env : CryptoEnv) (header : V1Header)
    (ct fk pt : List Nat)
    (hD : env.cbcDec fk header.iv ct = pkcs7pad pt) :
    Crypter.decrypt_raw env header ct fk =
      (some pt,
       [.zeroize .finalkey, .munlock .finalkey, .mlock .decrypted_database]) := by
  have hne := pkcs7pad_ne_nil pt
  have hlast := pkcs7pad_lastByte pt
  have hlen := pkcs7pad_length pt
  have hp := padLen_pos pt.length
  have hbody : Crypter.decrypt_raw env header ct fk =
      if (pkcs7pad pt).isEmpty then
        (none, [.zeroize .finalkey, .munlock .finalkey])
      else if (pkcs7pad pt).length <
          (pkcs7pad pt).getD ((pkcs7pad pt).length - 1) 0 then
        (none, [.zeroize .finalkey, .munlock .finalkey])
      else
        (some ((pkcs7pad pt).take ((pkcs7pad pt).length -
           (pkcs7pad pt).getD ((pkcs7pad pt).length - 1) 0)),
         [.zeroize .finalkey, .munlock .finalkey, .mlock .decrypted_database]) := by
    simp only [Crypter.decrypt_raw, hD]
    split_ifs <;> rfl
  rw [hbody, isEmpty_false_of_ne_nil hne]
  simp only [Bool.false_eq_true, if_false, hlast]
  simp only [hlen]
  rw [if_neg (by omega)]
  have htk : pt.length + padLen pt.length - padLen pt.length = pt.length := by
    omega
  rw [htk]
  rw [show (pkcs7pad pt).take pt.length = pt from take_append_length pt _]

/-- Claim C1, amended: for a valid environment, any credentials for which
encrypt_database succeeds, a header whose content_hash is the SHA-256 of
the plaintext, a plaintext whose padded length fits the size cap AND
which is nonempty or belongs to a header with num_groups = 0,
decrypt_database inverts encrypt_database. -/
theorem C1_roundtrip (env : CryptoEnv) (c : Crypter) (header : V1Header)
    (pt ct : List Nat) (hw : env.hashWriteOk = true)
    (hcbc : ∀ k iv d, env.cbcDec k iv (env.cbcEnc k iv d) = pkcs7pad d)
    (hhash : header.content_hash = env.sha256 pt)
    (hcap : pt.length + padLen pt.length ≤ 2147483446)
    (hne : pt ≠ [] ∨ header.num_groups = 0)
    (henc : Crypter.encrypt_databaseV env c header pt = .ok ct) :
    Crypter.decrypt_databaseV env c header ct = some (.ok pt) := by
  rcases hfk : Crypter.get_finalkey env c header with ⟨v, t⟩
  cases v with
  | error e =>
    simp only [Crypter.encrypt_databaseV, Crypter.encrypt_database, hfk] at henc
    exact Except.noConfusion henc
  | ok fk =>
    simp only [Crypter.encrypt_databaseV, Crypter.encrypt_database, hfk,
      Crypter.encrypt_raw, Except.ok.injEq] at henc
    have hD : env.cbcDec fk header.iv ct = pkcs7pad pt := by
      rw [← henc]
      exact hcbc fk header.iv pt
    have hraw := decrypt_raw_pad env header ct fk pt hD
    have hc1 : Crypter.check_decryption_success header pt = .ok () := by
      have hcond : ¬(pt.length > 2147483446 ∨
          (pt.length = 0 ∧ header.num_groups > 0)) := by
        have hp := padLen_pos pt.length
        rintro (h | ⟨h0, hg⟩)
        · omega
        · rcases hne with hne1 | hne1
          · exact hne1 (List.length_eq_zero.mp h0)
          · omega
      unfold Crypter.check_decryption_success
      exact if_neg hcond
    have hc2 : Crypter.check_content_hash env header pt = .ok () := by
      simp only [Crypter.check_content_hash, Crypter.get_content_hash,
        writeAll_ok env hw]
      exact if_neg (fun hcon => hcon hhash.symm)
    simp only [Crypter.decrypt_databaseV, Crypter.decrypt_database, hfk,
      hraw, hc1, hc2]

/-- Counterexample to claim C1 as stated: the empty plaintext with a
header recording one group satisfies every hypothesis of the claim, yet
decrypt_database rejects the decrypted empty payload with DecryptErr
instead of returning it. -/
theorem C1_counterexample :
    testEnv.hashWriteOk = true ∧
    (∀ k iv d, testEnv.cbcDec k iv (testEnv.cbcEnc k iv d) = pkcs7pad d) ∧
    hdrC1.content_hash = testEnv.sha256 [] ∧
    List.length ([] : List Nat) + padLen (List.length ([] : List Nat)) ≤
      2147483446 ∧
    Crypter.encrypt_databaseV testEnv pwOnly hdrC1 [] = .ok (pkcs7pad []) ∧
    Crypter.decrypt_databaseV testEnv pwOnly hdrC1 (pkcs7pad []) ≠
      some (.ok []) :=
  ⟨rfl, fun _ _ _ => rfl, rfl, by decide, rfl, by decide⟩

/-- Witness for the amended claim C1 on a nonempty plaintext. -/
theorem C1_witness :
    testEnv.hashWriteOk = true ∧
    (∀ k iv d, testEnv.cbcDec k iv (testEnv.cbcEnc k iv d) = pkcs7pad d) ∧
    hdrW.content_hash = testEnv.sha256 [1, 2, 3] ∧
    ([1, 2, 3] : List Nat).length + padLen ([1, 2, 3] : List Nat).length ≤
      2147483446 ∧
    ([1, 2, 3] : List Nat) ≠ [] ∧
    Crypter.encrypt_databaseV testEnv pwOnly hdrW [1, 2, 3] =
      .ok (pkcs7pad [1, 2, 3]) ∧
    Crypter.decrypt_databaseV testEnv pwOnly hdrW (pkcs7pad [1, 2, 3]) =
      some (.ok [1, 2, 3]) :=
  ⟨rfl, fun _ _ _ => rfl, rfl, by decide, by decide, rfl,
   C1_roundtrip testEnv pwOnly hdrW [1, 2, 3] (pkcs7pad [1, 2, 3]) rfl
     (fun _ _ _ => rfl) rfl (by decide) (Or.inl (by decide)) rfl⟩
